import Mathlib

/-
Verification of the natural-language specification of
kyawakyawa/vulkan_minimal_compute against its single source file
`src/jp_main.cpp`.

The program is a batch compute job: it creates a Vulkan instance, picks a
physical device and a compute queue family, allocates a storage buffer,
builds a compute pipeline from a SPIR-V blob read from disk, records one
dispatch, submits it with a fence, reads the buffer back, converts each
float channel to a byte, encodes a PNG and tears everything down.

The shallow embedding below models:
  * `FindMemoryType` (jp_main.cpp:753-768) over a list of memory-type
    property flags,
  * `GetComputeQueueFamilyIndex` (jp_main.cpp:724-749) and
    `FindPhysicalDevice` (jp_main.cpp:274-313) over a list model of the
    device enumeration,
  * `ReadFile` (jp_main.cpp:777-803) over an optional byte list standing
    for the result of `fopen`,
  * the binary32 (IEEE single precision, round-to-nearest-even)
    arithmetic used by the dispatch-size expression
    `(uint32_t)ceil(kWidth / float(kWorkgroupeSize))` (jp_main.cpp:617)
    and by the readback conversion
    `(unsigned char)(255.0f * channel)` (jp_main.cpp:670-673),
  * the `VK_CHECK_RESULT` macro (jp_main.cpp:22-28), whose failure path
    prints a message and then relies on `assert`, and
  * the control flow of `Run`/`main` (jp_main.cpp:119-144, 806-818) as a
    sequence of checked Vulkan calls, `throw` sites and the encode step,
    driven by an environment recording what the driver returns.

Machine floats are modelled exactly: a binary32 value is an exact
rational represented as a numerator/denominator pair of naturals, and
rounding is round-to-nearest-even on 24-bit significands, computed with
natural-number arithmetic only (so every definition evaluates by kernel
reduction).
-/

namespace VMC

/-
Compile-time constants of the program (jp_main.cpp:11-13) and the
relevant Vulkan / libc constants from the headers.
-/

def kWidth : Nat := 3200

def kHeight : Nat := 2400

def kWorkgroupeSize : Nat := 32

def VK_SUCCESS : Int := 0

def VK_TIMEOUT : Int := 2

def VK_QUEUE_COMPUTE_BIT : Nat := 2

def EXIT_SUCCESS : Nat := 0

def EXIT_FAILURE : Nat := 1

def VK_MAX_MEMORY_TYPES : Nat := 32

/-
Model of the `VK_CHECK_RESULT` macro (jp_main.cpp:22-28):

  VkResult res = (f);
  if (res != VK_SUCCESS) {
    printf("Fatal : VkResult is %d in %s at line %d\n", ...);
    assert(res == VK_SUCCESS);
  }

On failure it always prints; whether the process survives depends on the
build: with NDEBUG defined (`ndebug = true`) `assert` is a no-op and
execution continues, otherwise `assert` aborts the process.
-/

structure CheckOutcome where
  continues : Bool
  printed : Bool
deriving DecidableEq

def VK_CHECK_RESULT (ndebug : Bool) (res : Int) : CheckOutcome :=
  if res = VK_SUCCESS then ⟨true, false⟩ else ⟨ndebug, true⟩

/-
Model of `FindMemoryType` (jp_main.cpp:753-768).  The device's memory
types are modelled by the list of their `propertyFlags` bitmasks, in
index order (the `memoryTypes` array of
`VkPhysicalDeviceMemoryProperties`; `memoryTypeCount` is the list
length, at most `VK_MAX_MEMORY_TYPES = 32`).  The loop body is

  if ((memory_type_bits & (1 << i)) &&
      ((memory_properties.memoryTypes[i].propertyFlags & properties)
        == properties))
    return i;

and after the loop the function does `return -1;`, which as a `uint32_t`
is `2^32 - 1`.
-/

def memTypeOk (memory_type_bits properties flags i : Nat) : Prop :=
  memory_type_bits &&& (1 <<< i) ≠ 0 ∧ flags &&& properties = properties

instance (bits props flags i : Nat) : Decidable (memTypeOk bits props flags i) :=
  inferInstanceAs (Decidable (_ ∧ _))

def findMemoryTypeLoop (memory_type_bits properties : Nat) :
    Nat → List Nat → Nat
  | _, [] => 2 ^ 32 - 1
  | i, flags :: rest =>
    if memTypeOk memory_type_bits properties flags i then i
    else findMemoryTypeLoop memory_type_bits properties (i + 1) rest

def FindMemoryType (memoryTypes : List Nat)
    (memory_type_bits properties : Nat) : Nat :=
  findMemoryTypeLoop memory_type_bits properties 0 memoryTypes

/-
Model of `ReadFile` (jp_main.cpp:777-803).  The argument stands for the
result of `fopen`: `none` when the file cannot be found or opened
(`fp == NULL`), `some bytes` otherwise.  On `none` the source prints
"Could not find or open file: ..." and then *continues*: the very next
statement is `fseek(fp, 0, SEEK_END)` on the null `FILE*`, which is
undefined behavior, modelled by the `nullFileDeref` outcome.  On success
the data is zero-padded to the next multiple of 4 bytes
(`long(ceil(filesize / 4.0)) * 4`, an exact double computation for any
realistic file size, equal to natural ceiling division by 4).
The returned `Bool` records whether the error message was printed.
-/

inductive ReadFileOutcome where
  | ok (paddedBytes : List Nat) (length : Nat)
  | nullFileDeref
deriving DecidableEq

def ReadFile (file : Option (List Nat)) : ReadFileOutcome × Bool :=
  match file with
  | none => (.nullFileDeref, true)
  | some bytes =>
    let filesize := bytes.length
    let filesizepadded := (filesize + 3) / 4 * 4
    (.ok (bytes ++ List.replicate (filesizepadded - filesize) 0) filesizepadded,
     false)

/-
Models of `FindPhysicalDevice` (jp_main.cpp:274-313) and
`GetComputeQueueFamilyIndex` (jp_main.cpp:724-749).  Physical devices
are identifiers in enumeration order; the selection loop takes the first
device (`if (true) break;`), and throws when `device_count == 0`.  Queue
families carry the `queueCount` and `queueFlags` fields actually read by
the source; the loop takes the first index with
`queueCount > 0 && (queueFlags & VK_QUEUE_COMPUTE_BIT)` and throws when
the loop runs off the end.
-/

def FindPhysicalDevice (devices : List Nat) : Except String Nat :=
  match devices with
  | [] => .error "could not find a device with vulkan support"
  | d :: _ => .ok d

structure VkQueueFamilyProperties where
  queueCount : Nat
  queueFlags : Nat
deriving DecidableEq

def computeFamilyOk (props : VkQueueFamilyProperties) : Prop :=
  0 < props.queueCount ∧ props.queueFlags &&& VK_QUEUE_COMPUTE_BIT ≠ 0

instance (props : VkQueueFamilyProperties) : Decidable (computeFamilyOk props) :=
  inferInstanceAs (Decidable (_ ∧ _))

def computeQueueLoop : Nat → List VkQueueFamilyProperties → Except String Nat
  | _, [] => .error "could not find a queue family that supports operations"
  | i, props :: rest =>
    if computeFamilyOk props then .ok i
    else computeQueueLoop (i + 1) rest

def GetComputeQueueFamilyIndex (queue_families : List VkQueueFamilyProperties) :
    Except String Nat :=
  computeQueueLoop 0 queue_families

def exceptOk {ε α : Type} (e : Except ε α) : Bool :=
  match e with
  | .ok _ => true
  | .error _ => false

/-
Running `GetComputeQueueFamilyIndex` twice against one unchanged device
enumeration, as in spec section 8's determinism property.
-/

def getComputeQueueFamilyIndexTwice
    (queue_families : List VkQueueFamilyProperties) :
    Except String Nat × Except String Nat :=
  (GetComputeQueueFamilyIndex queue_families,
   GetComputeQueueFamilyIndex queue_families)

/-
Exact binary32 arithmetic.  A finite nonnegative binary32 value is an
exact rational, represented by a numerator/denominator pair of naturals
(the denominator a power of two).  `fl32 a b` rounds the positive
rational `a / b` (`a, b ≥ 1`) to the nearest binary32 value, ties to
even, assuming no overflow or subnormals (all values in this program are
far inside the normal range).  First, a structural-recursion base-2
logarithm (`log2f n n` is `⌊log2 n⌋` for `n ≥ 1`, since `n < 2 ^ n`).
-/

def log2f : Nat → Nat → Nat
  | 0, _ => 0
  | fuel + 1, n => if n ≤ 1 then 0 else log2f fuel (n / 2) + 1

def natLog2 (n : Nat) : Nat := log2f n n

def twoPowLE (e : Int) (a b : Nat) : Bool :=
  if 0 ≤ e then decide (b * 2 ^ e.toNat ≤ a) else decide (b ≤ a * 2 ^ (-e).toNat)

def ratFloorLog2 (a b : Nat) : Int :=
  if twoPowLE ((natLog2 a : Int) - (natLog2 b : Int)) a b then
    (natLog2 a : Int) - (natLog2 b : Int)
  else (natLog2 a : Int) - (natLog2 b : Int) - 1

def rne (A B : Nat) : Nat :=
  if 2 * (A % B) < B then A / B
  else if B < 2 * (A % B) then A / B + 1
  else if A / B % 2 = 0 then A / B else A / B + 1

def fl32 (a b : Nat) : Nat × Nat :=
  if 23 ≤ ratFloorLog2 a b then
    (rne a (b * 2 ^ (ratFloorLog2 a b - 23).toNat) *
       2 ^ (ratFloorLog2 a b - 23).toNat, 1)
  else (rne (a * 2 ^ (23 - ratFloorLog2 a b).toNat) b,
    2 ^ (23 - ratFloorLog2 a b).toNat)

def ceilFrac (p : Nat × Nat) : Nat := (p.1 + p.2 - 1) / p.2

def fracVal (p : Nat × Nat) : ℚ := (p.1 : ℚ) / (p.2 : ℚ)

/-
The dispatch-size expression (jp_main.cpp:617):

  vkCmdDispatch(command_buffer,
      (uint32_t)ceil(kWidth  / float(kWorkgroupeSize)),
      (uint32_t)ceil(kHeight / float(kWorkgroupeSize)), 1);

Both `int` operands are converted to `float` (round to nearest), the
division is a correctly rounded binary32 division, `ceil` on the
resulting float is exact, and the cast to `uint32_t` truncates the
(already integral) value.
-/

def dispatchGroupCount (dim groupSize : Nat) : Nat :=
  ceilFrac (fl32 ((fl32 dim 1).1 * (fl32 groupSize 1).2)
    ((fl32 dim 1).2 * (fl32 groupSize 1).1))

def dispatchTriple : Nat × Nat × Nat :=
  (dispatchGroupCount kWidth kWorkgroupeSize,
   dispatchGroupCount kHeight kWorkgroupeSize, 1)

/-
The readback conversion (jp_main.cpp:670-673):

  image.push_back((unsigned char)(255.0f * (pmapped_memory[i].r)));

for each of the four channels.  For a nonnegative channel value `n / d`
(an exact binary32 value produced by the kernel), `255.0f * v` is the
correctly rounded binary32 product and the cast to `unsigned char`
truncates toward zero; there is no clamping anywhere.  `channelScaled`
is the truncated integer before the 8-bit narrowing; values of 256 and
above are outside `unsigned char` range (formally undefined behavior in
C++, a wrap modulo 256 on common targets, modelled by `channelToByte`).
-/

def channelScaled (n d : Nat) : Nat :=
  if n = 0 then 0
  else
    let p := fl32 (255 * n) d
    p.1 / p.2

def channelToByte (n d : Nat) : Nat := channelScaled n d % 256

structure Pixel where
  r : Nat × Nat
  g : Nat × Nat
  b : Nat × Nat
  a : Nat × Nat
deriving DecidableEq

def pixelBytes (p : Pixel) : List Nat :=
  [channelToByte p.r.1 p.r.2, channelToByte p.g.1 p.g.2,
   channelToByte p.b.1 p.b.2, channelToByte p.a.1 p.a.2]

def bytesOfPixels (pixels : List Pixel) : List Nat :=
  pixels.flatMap pixelBytes

/-
Resource lifecycle (for the teardown claim).  `creationOrder` lists the
destroyed-at-teardown resources in the order `Run` creates them
(jp_main.cpp:119-144 calling into the Create* members):
instance (vkCreateInstance, line 247), debug callback (line 269),
logical device (line 346), buffer (line 365), buffer memory (line 400),
descriptor set layout (line 436), descriptor pool (line 459), shader
module (line 520), pipeline layout (line 545), pipeline (line 555),
command pool (line 577).  `destructionOrder` is the exact sequence of
destroy calls in `CleanUp` (jp_main.cpp:683-707).  `ownerOf` is the
ownership (parent) relation: the instance owns the debug callback and
the logical device, the logical device owns every other resource.
-/

inductive Res where
  | inst
  | debugCallback
  | device
  | buffer
  | memory
  | descSetLayout
  | descPool
  | shaderModule
  | pipelineLayout
  | pipeline
  | commandPool
deriving DecidableEq

def creationOrder : List Res :=
  [.inst, .debugCallback, .device, .buffer, .memory, .descSetLayout,
   .descPool, .shaderModule, .pipelineLayout, .pipeline, .commandPool]

def destructionOrder : List Res :=
  [.debugCallback, .memory, .buffer, .shaderModule, .descPool,
   .descSetLayout, .pipelineLayout, .pipeline, .commandPool, .device, .inst]

def ownerOf : Res → Option Res
  | .inst => none
  | .debugCallback => some .inst
  | .device => some .inst
  | _ => some .device

def destroyedBeforeOwner (r : Res) : Bool :=
  match ownerOf r with
  | none => true
  | some p => decide (destructionOrder.indexOf r < destructionOrder.indexOf p)

/-
Whole-program control flow.  `Env` records everything the outside world
(driver, filesystem, encoder) hands the program: whether the validation
layer / debug-report extension are supported, whether the two
`vkGetInstanceProcAddr` lookups succeed, the `VkResult` of every call
wrapped in `VK_CHECK_RESULT`, the device and queue-family enumerations,
the shader file, the buffer contents after the GPU ran, and the status
`lodepng::encode` returns.  `ndebug` is the NDEBUG build flag
(jp_main.cpp:15-19: `kEnableValidationLayers` is its negation).
-/

structure Env where
  ndebug : Bool
  layerSupported : Bool
  extensionSupported : Bool
  createDebugLoadable : Bool
  destroyDebugLoadable : Bool
  createInstanceRes : Int
  createDebugRes : Int
  devices : List Nat
  queueFamilies : List VkQueueFamilyProperties
  createDeviceRes : Int
  createBufferRes : Int
  allocateMemoryRes : Int
  bindBufferRes : Int
  createDescSetLayoutRes : Int
  createDescPoolRes : Int
  allocDescSetsRes : Int
  shaderFile : Option (List Nat)
  createShaderModuleRes : Int
  createPipelineLayoutRes : Int
  createPipelinesRes : Int
  createCommandPoolRes : Int
  allocCommandBuffersRes : Int
  beginCmdRes : Int
  endCmdRes : Int
  createFenceRes : Int
  queueSubmitRes : Int
  waitFencesRes : Int
  pixels : List Pixel
  encodeError : Nat
deriving DecidableEq

/-
Execution state while `Run` executes: still running, an exception
thrown (to be caught in `main`), dead (an `assert` aborted the process),
or stuck in undefined behavior (the null `FILE*` dereference in
`ReadFile`).  Each state carries whether an error message has been
printed to stdout so far.
-/

inductive Exec where
  | running (errPrinted : Bool)
  | thrown (errPrinted : Bool)
  | dead (errPrinted : Bool)
  | stuckUB (errPrinted : Bool)
deriving DecidableEq

def runVkChecks (ndebug : Bool) : List Int → Bool × Bool
  | [] => (false, true)
  | res :: rest =>
    let c := VK_CHECK_RESULT ndebug res
    if c.continues then
      let pr := runVkChecks ndebug rest
      (c.printed || pr.1, pr.2)
    else (c.printed, false)

def execChecks (ndebug : Bool) (rs : List Int) : Exec → Exec
  | .running p =>
    let pr := runVkChecks ndebug rs
    if pr.2 then .running (p || pr.1) else .dead (p || pr.1)
  | e => e

def execThrowIf (cond : Bool) : Exec → Exec
  | .running p => if cond then .thrown p else .running p
  | e => e

def execReadFile (file : Option (List Nat)) : Exec → Exec
  | .running p =>
    match ReadFile file with
    | (.nullFileDeref, _) => .stuckUB true
    | (.ok _ _, _) => .running p
  | e => e

/-
`Run` from `CreateInstance` through `RunCommandBuffer`
(jp_main.cpp:124-134), in source order:
layer check, extension check (throws, only when validation is on),
vkCreateInstance, vkCreateDebugReportCallbackEXT loading + call,
FindPhysicalDevice (throws on empty enumeration),
GetComputeQueueFamilyIndex (throws when no compute family), then each
VK_CHECK_RESULT-wrapped call of CreateDevice, CreateBuffer,
CreateDescriptorSetLayout, CreateDescriptorSet, CreateComputePipeline
(whose ReadFile may hit the null-FILE* path), CreateCommandBuffer and
RunCommandBuffer.
-/

def runExecToSync (env : Env) : Exec :=
  let validation := !env.ndebug
  (Exec.running false)
  |> execThrowIf (validation && !env.layerSupported)
  |> execThrowIf (validation && !env.extensionSupported)
  |> execChecks env.ndebug [env.createInstanceRes]
  |> execThrowIf (validation && !env.createDebugLoadable)
  |> execChecks env.ndebug (if validation then [env.createDebugRes] else [])
  |> execThrowIf env.devices.isEmpty
  |> execThrowIf (!exceptOk (GetComputeQueueFamilyIndex env.queueFamilies))
  |> execChecks env.ndebug [env.createDeviceRes]
  |> execChecks env.ndebug
      [env.createBufferRes, env.allocateMemoryRes, env.bindBufferRes]
  |> execChecks env.ndebug [env.createDescSetLayoutRes]
  |> execChecks env.ndebug [env.createDescPoolRes, env.allocDescSetsRes]
  |> execReadFile env.shaderFile
  |> execChecks env.ndebug
      [env.createShaderModuleRes, env.createPipelineLayoutRes,
       env.createPipelinesRes]
  |> execChecks env.ndebug
      [env.createCommandPoolRes, env.allocCommandBuffersRes,
       env.beginCmdRes, env.endCmdRes]
  |> execChecks env.ndebug
      [env.createFenceRes, env.queueSubmitRes, env.waitFencesRes]

inductive Outcome where
  | exit (code : Nat)
  | aborted
  | undefinedBehavior
deriving DecidableEq

structure ProgResult where
  outcome : Outcome
  errPrinted : Bool
  caughtPrinted : Bool
  encoderPrinted : Bool
  imageBytes : Option (List Nat)
deriving DecidableEq

/-
`main` (jp_main.cpp:806-818): `app.Run()` inside a try block; a caught
`std::runtime_error` prints `e.what()` and returns `EXIT_FAILURE`;
otherwise `main` returns `EXIT_SUCCESS`.  After the fence wait,
`SaveRenderedImage` (jp_main.cpp:657-681) converts the buffer to bytes
and calls `lodepng::encode`; a nonzero status is only printed
("encoder error ...") — execution continues into `CleanUp`, which can
itself throw when `vkDestroyDebugReportCallbackEXT` cannot be loaded
(jp_main.cpp:690-693, validation builds only).
-/

def finishRun (env : Env) : Exec → ProgResult
  | .thrown p => ⟨.exit EXIT_FAILURE, p, true, false, none⟩
  | .dead p => ⟨.aborted, p, false, false, none⟩
  | .stuckUB p => ⟨.undefinedBehavior, p, false, false, none⟩
  | .running p =>
    let bytes := bytesOfPixels env.pixels
    let encPrint := env.encodeError != 0
    if !env.ndebug && !env.destroyDebugLoadable then
      ⟨.exit EXIT_FAILURE, p, true, encPrint, some bytes⟩
    else
      ⟨.exit EXIT_SUCCESS, p, false, encPrint, some bytes⟩

def appRun (env : Env) : ProgResult := finishRun env (runExecToSync env)

/-
Predicates on environments used by the exit-contract theorems.
`instancePhaseOk` says `CreateInstance` completes normally (in a
validation build this needs the layer, the extension and the loadable
callback); `runsClean` says every step through `SaveRenderedImage` and
`CleanUp` completes normally, leaving only the encoder status free.
-/

def computeBitSet (f : VkQueueFamilyProperties) : Prop :=
  f.queueFlags &&& VK_QUEUE_COMPUTE_BIT ≠ 0

instance (f : VkQueueFamilyProperties) : Decidable (computeBitSet f) :=
  inferInstanceAs (Decidable (_ ≠ _))

def instancePhaseOk (env : Env) : Prop :=
  env.createInstanceRes = VK_SUCCESS ∧
  (env.ndebug = false →
    env.layerSupported = true ∧ env.extensionSupported = true ∧
    env.createDebugLoadable = true ∧ env.createDebugRes = VK_SUCCESS)

def runsClean (env : Env) : Prop :=
  instancePhaseOk env ∧
  env.devices ≠ [] ∧
  exceptOk (GetComputeQueueFamilyIndex env.queueFamilies) = true ∧
  env.createDeviceRes = VK_SUCCESS ∧
  env.createBufferRes = VK_SUCCESS ∧
  env.allocateMemoryRes = VK_SUCCESS ∧
  env.bindBufferRes = VK_SUCCESS ∧
  env.createDescSetLayoutRes = VK_SUCCESS ∧
  env.createDescPoolRes = VK_SUCCESS ∧
  env.allocDescSetsRes = VK_SUCCESS ∧
  env.shaderFile.isSome = true ∧
  env.createShaderModuleRes = VK_SUCCESS ∧
  env.createPipelineLayoutRes = VK_SUCCESS ∧
  env.createPipelinesRes = VK_SUCCESS ∧
  env.createCommandPoolRes = VK_SUCCESS ∧
  env.allocCommandBuffersRes = VK_SUCCESS ∧
  env.beginCmdRes = VK_SUCCESS ∧
  env.endCmdRes = VK_SUCCESS ∧
  env.createFenceRes = VK_SUCCESS ∧
  env.queueSubmitRes = VK_SUCCESS ∧
  env.waitFencesRes = VK_SUCCESS ∧
  (env.ndebug = false → env.destroyDebugLoadable = true)

def allOk (env : Env) : Prop :=
  runsClean env ∧ env.encodeError = 0

/-
A nominal release-build environment in which every external interaction
succeeds, used as the concrete base point of witnesses and
counterexamples.
-/

def okEnv : Env :=
  { ndebug := true, layerSupported := true, extensionSupported := true,
    createDebugLoadable := true, destroyDebugLoadable := true,
    createInstanceRes := 0, createDebugRes := 0,
    devices := [0], queueFamilies := [⟨1, 2⟩],
    createDeviceRes := 0, createBufferRes := 0, allocateMemoryRes := 0,
    bindBufferRes := 0, createDescSetLayoutRes := 0, createDescPoolRes := 0,
    allocDescSetsRes := 0, shaderFile := some [], createShaderModuleRes := 0,
    createPipelineLayoutRes := 0, createPipelinesRes := 0,
    createCommandPoolRes := 0, allocCommandBuffersRes := 0, beginCmdRes := 0,
    endCmdRes := 0, createFenceRes := 0, queueSubmitRes := 0,
    waitFencesRes := 0, pixels := [], encodeError := 0 }

instance (env : Env) : Decidable (instancePhaseOk env) := by
  unfold instancePhaseOk; infer_instance

instance (env : Env) : Decidable (runsClean env) := by
  unfold runsClean; infer_instance

instance (env : Env) : Decidable (allOk env) := by
  unfold allOk; infer_instance

/-
Loop lemmas for `FindMemoryType` and `GetComputeQueueFamilyIndex`: the
loops return the first index satisfying their condition, and their
failure value when no index satisfies it.
-/

theorem findMemoryTypeLoop_none (bits props : Nat) (l : List Nat) (i : Nat)
    (h : ∀ j, j < l.length → ¬ memTypeOk bits props (l.getD j 0) (i + j)) :
    findMemoryTypeLoop bits props i l = 2 ^ 32 - 1 := by
  induction l generalizing i with
  | nil => rfl
  | cons f rest ih =>
    have h0 : ¬ memTypeOk bits props f i := by simpa using h 0 (by simp)
    rw [findMemoryTypeLoop, if_neg h0]
    refine ih (i + 1) (fun j hj => ?_)
    have := h (j + 1) (by simpa using Nat.succ_lt_succ hj)
    simpa [Nat.add_comm, Nat.add_assoc, Nat.add_left_comm] using this

theorem findMemoryTypeLoop_found (bits props : Nat) (l : List Nat) (i j0 : Nat)
    (hj : j0 < l.length)
    (hok : memTypeOk bits props (l.getD j0 0) (i + j0))
    (hmin : ∀ j, j < j0 → ¬ memTypeOk bits props (l.getD j 0) (i + j)) :
    findMemoryTypeLoop bits props i l = i + j0 := by
  induction l generalizing i j0 with
  | nil => simp at hj
  | cons f rest ih =>
    by_cases h0 : memTypeOk bits props f i
    · have hj0 : j0 = 0 := by
        by_contra hne
        exact hmin 0 (Nat.pos_of_ne_zero hne) (by simpa using h0)
      subst hj0
      rw [findMemoryTypeLoop, if_pos h0, Nat.add_zero]
    · obtain ⟨j1, rfl⟩ : ∃ j1, j0 = j1 + 1 := by
        cases j0 with
        | zero => exact absurd (by simpa using hok) h0
        | succ j1 => exact ⟨j1, rfl⟩
      rw [findMemoryTypeLoop, if_neg h0]
      have hrec := ih (i + 1) j1 (by simpa using Nat.lt_of_succ_lt_succ hj)
        (by simpa [Nat.add_comm, Nat.add_assoc, Nat.add_left_comm] using hok)
        (fun j hjlt => by
          have := hmin (j + 1) (Nat.succ_lt_succ hjlt)
          simpa [Nat.add_comm, Nat.add_assoc, Nat.add_left_comm] using this)
      rw [hrec]
      omega

theorem computeQueueLoop_none (l : List VkQueueFamilyProperties) (i : Nat)
    (h : ∀ f ∈ l, ¬ computeFamilyOk f) :
    computeQueueLoop i l =
      .error "could not find a queue family that supports operations" := by
  induction l generalizing i with
  | nil => rfl
  | cons f rest ih =>
    rw [computeQueueLoop, if_neg (h f (by simp))]
    exact ih (i + 1) (fun f hf => h f (by simp [hf]))

theorem computeQueueLoop_found (l : List VkQueueFamilyProperties) (i j0 : Nat)
    (hj : j0 < l.length)
    (hok : computeFamilyOk (l.getD j0 ⟨0, 0⟩))
    (hmin : ∀ j, j < j0 → ¬ computeFamilyOk (l.getD j ⟨0, 0⟩)) :
    computeQueueLoop i l = .ok (i + j0) := by
  induction l generalizing i j0 with
  | nil => simp at hj
  | cons f rest ih =>
    by_cases h0 : computeFamilyOk f
    · have hj0 : j0 = 0 := by
        by_contra hne
        exact hmin 0 (Nat.pos_of_ne_zero hne) (by simpa using h0)
      subst hj0
      rw [computeQueueLoop, if_pos h0, Nat.add_zero]
    · obtain ⟨j1, rfl⟩ : ∃ j1, j0 = j1 + 1 := by
        cases j0 with
        | zero => exact absurd (by simpa using hok) h0
        | succ j1 => exact ⟨j1, rfl⟩
      rw [computeQueueLoop, if_neg h0]
      have hrec := ih (i + 1) j1 (by simpa using Nat.lt_of_succ_lt_succ hj)
        (by simpa using hok)
        (fun j hjlt => by simpa using hmin (j + 1) (Nat.succ_lt_succ hjlt))
      rw [hrec]
      congr 1
      omega

/-- C1.  `FindMemoryType` returns the lowest-indexed memory type whose
index is allowed by the required-type bitmask and whose property flags
contain all the requested property bits; when no memory type satisfies
both conditions it returns `(uint32_t)(-1) = 2^32 - 1`, which is not a
valid memory-type index (the device has at most 32 types), so the
subsequent `vkAllocateMemory` fails and `VK_CHECK_RESULT` prints its
failure message.  It never returns an index satisfying only one of the
two conditions. -/
theorem C1_find_memory_type_spec (memoryTypes : List Nat) (bits props : Nat)
    (hlen : memoryTypes.length ≤ VK_MAX_MEMORY_TYPES) :
    (∀ j0, j0 < memoryTypes.length →
       memTypeOk bits props (memoryTypes.getD j0 0) j0 →
       (∀ j, j < j0 → ¬ memTypeOk bits props (memoryTypes.getD j 0) j) →
       FindMemoryType memoryTypes bits props = j0) ∧
    ((∀ j, j < memoryTypes.length →
        ¬ memTypeOk bits props (memoryTypes.getD j 0) j) →
       FindMemoryType memoryTypes bits props = 2 ^ 32 - 1 ∧
       memoryTypes.length < FindMemoryType memoryTypes bits props) ∧
    (∀ (ndebug : Bool) (res : Int), res ≠ VK_SUCCESS →
       (VK_CHECK_RESULT ndebug res).printed = true) := by
  refine ⟨fun j0 hj hok hmin => ?_, fun hnone => ?_, fun ndebug res hres => ?_⟩
  · have := findMemoryTypeLoop_found bits props memoryTypes 0 j0 hj
      (by simpa using hok) (fun j hjlt => by simpa using hmin j hjlt)
    simpa [FindMemoryType] using this
  · have heq := findMemoryTypeLoop_none bits props memoryTypes 0
      (fun j hj => by simpa using hnone j hj)
    have : FindMemoryType memoryTypes bits props = 2 ^ 32 - 1 := heq
    refine ⟨this, ?_⟩
    rw [this]
    have : VK_MAX_MEMORY_TYPES < 2 ^ 32 - 1 := by decide
    omega
  · simp [VK_CHECK_RESULT, if_neg hres]

/-- C1 witness: on the concrete memory-type list `[1, 6, 7]` with
required-type bitmask `6` and requested properties `6`, index 0 is ruled
out by the bitmask, and index 1 is the first index satisfying both
conditions, so it is returned. -/
theorem C1_find_memory_type_witness :
    FindMemoryType [1, 6, 7] 6 6 = 1 ∧ FindMemoryType [1, 6, 7] 6 8 = 2 ^ 32 - 1 :=
  ⟨(C1_find_memory_type_spec [1, 6, 7] 6 6 (by decide)).1 1 (by decide)
      (by decide)
      (fun j hj => by
        have hj0 : j = 0 := by omega
        subst hj0; decide),
   ((C1_find_memory_type_spec [1, 6, 7] 6 8 (by decide)).2.1
      (fun j hj => by
        have h3 : j = 0 ∨ j = 1 ∨ j = 2 := by
          simp only [List.length_cons, List.length_nil] at hj
          omega
        rcases h3 with h | h | h <;> subst h <;> decide)).1⟩

/-- C2.  At the failing input (the kernel blob file `shaders/comp.spv`
cannot be found or opened, so `fopen` returns `NULL`), `ReadFile` prints
"Could not find or open file" but does not throw or return: execution
continues into `fseek(fp, 0, SEEK_END)` on the null `FILE*`, which is
undefined behavior, not a reported fatal error with a non-zero exit
code.  On any successfully opened file no such message is printed. -/
theorem C2_readfile_missing_file_continues :
    ReadFile none = (.nullFileDeref, true) ∧
    (∀ bytes : List Nat, (ReadFile (some bytes)).2 = false) :=
  ⟨rfl, fun _ => rfl⟩

/-- C4.  The readback channel conversion is the truncating cast
`(unsigned char)(255.0f * value)` with no clamping: channel value 1.0
maps to byte 255 and 0.0 maps to byte 0; an out-of-range channel value
such as 1.5 scales to the truncated integer 382, above the
`unsigned char` range (no clamping to 255), which narrows to
382 mod 256 = 126 on common targets. -/
theorem C4_channel_byte_conversion :
    channelToByte 1 1 = 255 ∧ channelToByte 0 1 = 0 ∧
    channelScaled 3 2 = 382 ∧ 255 < channelScaled 3 2 ∧
    channelToByte 3 2 = 126 := by
  decide

/-- C8.  `GetComputeQueueFamilyIndex` is a pure function of the device's
queue-family enumeration: running it twice against one unchanged
enumeration returns the same result both times. -/
theorem C8_queue_family_index_deterministic
    (queue_families : List VkQueueFamilyProperties) :
    (getComputeQueueFamilyIndexTwice queue_families).1 =
      (getComputeQueueFamilyIndexTwice queue_families).2 := rfl

/-- C9 counterexample: the destruction sequence of `CleanUp` is not the
reverse of the creation sequence of `Run`.  Reverse-creation order would
destroy the command pool first and the debug callback second-to-last;
the code destroys the debug callback first, and destroys the pipeline
layout before the pipeline even though the layout was created first. -/
theorem C9_not_reverse_creation_counterexample :
    destructionOrder ≠ creationOrder.reverse ∧
    destructionOrder.head? = some .debugCallback ∧
    creationOrder.reverse.head? = some .commandPool ∧
    destructionOrder.indexOf .pipelineLayout <
      destructionOrder.indexOf .pipeline ∧
    creationOrder.indexOf .pipelineLayout < creationOrder.indexOf .pipeline := by
  decide

/-- C9 (amended).  Teardown destroys every owned resource exactly once,
following exactly the fixed sequence diagnostic callback → memory →
buffer → shader module → descriptor pool → descriptor layout → pipeline
layout → pipeline → command pool → logical device → instance (which is
not the strict reverse of creation order), and every resource is
destroyed strictly before its owner: the logical device's children
precede the logical device, and the debug callback and the logical
device precede the instance. -/
theorem C9_teardown_sequence :
    destructionOrder =
      [.debugCallback, .memory, .buffer, .shaderModule, .descPool,
       .descSetLayout, .pipelineLayout, .pipeline, .commandPool, .device,
       .inst] ∧
    destructionOrder.Perm creationOrder ∧
    destructionOrder.all destroyedBeforeOwner = true := by
  refine ⟨rfl, by decide, by decide⟩

/-
Lemmas about the checked-call runner and the run pipeline.
-/

theorem runVkChecks_all_ok (ndebug : Bool) (rs : List Int)
    (h : ∀ r ∈ rs, r = VK_SUCCESS) : runVkChecks ndebug rs = (false, true) := by
  induction rs with
  | nil => rfl
  | cons r rest ih =>
    have hr : r = VK_SUCCESS := h r (by simp)
    simp [runVkChecks, VK_CHECK_RESULT, hr,
      ih (fun x hx => h x (by simp [hx]))]

theorem runVkChecks_ndebug_survives (rs : List Int) :
    (runVkChecks true rs).2 = true := by
  induction rs with
  | nil => rfl
  | cons r rest ih =>
    by_cases hr : r = VK_SUCCESS <;>
      simp [runVkChecks, VK_CHECK_RESULT, hr, ih]

theorem runVkChecks_ndebug_printed (rs : List Int) (r : Int) (hr : r ∈ rs)
    (hne : r ≠ VK_SUCCESS) : (runVkChecks true rs).1 = true := by
  induction rs with
  | nil => simp at hr
  | cons x rest ih =>
    rcases List.mem_cons.mp hr with h | h
    · subst h
      simp [runVkChecks, VK_CHECK_RESULT, hne]
    · by_cases hx : x = VK_SUCCESS <;>
        simp [runVkChecks, VK_CHECK_RESULT, hx, ih h]

theorem execChecks_ndebug (rs : List Int) (p : Bool) :
    execChecks true rs (.running p) =
      .running (p || (runVkChecks true rs).1) := by
  simp [execChecks, runVkChecks_ndebug_survives]

theorem runExecToSync_clean (env : Env) (h : runsClean env) :
    runExecToSync env = .running false := by
  obtain ⟨⟨hci, hvi⟩, hdev, hq, hcd, hcb, ham, hbb, hdsl, hdp, hads, hsf, hsm,
    hpl, hpp, hcp, hacb, hbeg, hend, hcf, hqs, hwf, hdd⟩ := h
  obtain ⟨d, ds, hds⟩ := List.exists_cons_of_ne_nil hdev
  obtain ⟨bytes, hbytes⟩ := Option.isSome_iff_exists.mp hsf
  cases hnd : env.ndebug with
  | true =>
    simp [runExecToSync, hnd, execThrowIf, hds, hq,
      execChecks, runVkChecks, VK_CHECK_RESULT, VK_SUCCESS,
      hci, hcd, hcb, ham, hbb, hdsl, hdp,
      hads, hsm, hpl, hpp, hcp, hacb, hbeg, hend, hcf, hqs, hwf,
      execReadFile, hbytes, ReadFile]
  | false =>
    obtain ⟨hl, he, hcl, hcr⟩ := hvi hnd
    simp [runExecToSync, hnd, execThrowIf, hl, he, hcl, hds, hq,
      execChecks, runVkChecks, VK_CHECK_RESULT, VK_SUCCESS,
      hci, hcr, hcd, hcb, ham, hbb, hdsl,
      hdp, hads, hsm, hpl, hpp, hcp, hacb, hbeg, hend, hcf, hqs, hwf,
      execReadFile, hbytes, ReadFile]

theorem appRun_clean (env : Env) (h : runsClean env) :
    appRun env = ⟨.exit EXIT_SUCCESS, false, false, env.encodeError != 0,
      some (bytesOfPixels env.pixels)⟩ := by
  have hrun := runExecToSync_clean env h
  obtain ⟨-, -, -, -, -, -, -, -, -, -, -, -, -, -, -, -, -, -, -, -, -,
    hdd⟩ := h
  unfold appRun
  rw [hrun]
  cases hnd : env.ndebug with
  | true => simp [finishRun, hnd]
  | false => simp [finishRun, hnd, hdd hnd]

theorem runExecToSync_ndebug_runs (env : Env) (hnd : env.ndebug = true)
    (hdev : env.devices ≠ [])
    (hq : exceptOk (GetComputeQueueFamilyIndex env.queueFamilies) = true)
    (hsf : env.shaderFile.isSome = true) :
    ∃ p : Bool, runExecToSync env = .running p := by
  obtain ⟨d, ds, hds⟩ := List.exists_cons_of_ne_nil hdev
  obtain ⟨bytes, hbytes⟩ := Option.isSome_iff_exists.mp hsf
  simp only [runExecToSync, hnd, Bool.not_true, Bool.false_and,
    Bool.not_false, hds, hq, execThrowIf, execChecks_ndebug, execReadFile,
    hbytes, ReadFile, List.isEmpty_cons, if_false, Bool.false_eq_true,
    reduceIte]
  exact ⟨_, rfl⟩

theorem runExecToSync_ndebug_wait_printed (env : Env)
    (hnd : env.ndebug = true) (hdev : env.devices ≠ [])
    (hq : exceptOk (GetComputeQueueFamilyIndex env.queueFamilies) = true)
    (hsf : env.shaderFile.isSome = true)
    (hwf : env.waitFencesRes ≠ VK_SUCCESS) :
    runExecToSync env = .running true := by
  obtain ⟨d, ds, hds⟩ := List.exists_cons_of_ne_nil hdev
  obtain ⟨bytes, hbytes⟩ := Option.isSome_iff_exists.mp hsf
  have hpr : (runVkChecks true
      [env.createFenceRes, env.queueSubmitRes, env.waitFencesRes]).1 =
        true :=
    runVkChecks_ndebug_printed _ env.waitFencesRes (by simp) hwf
  simp only [runExecToSync, hnd, Bool.not_true, Bool.false_and,
    Bool.not_false, hds, hq, execThrowIf, execChecks_ndebug, execReadFile,
    hbytes, ReadFile, List.isEmpty_cons, if_false, Bool.false_eq_true,
    reduceIte, hpr, Bool.or_true]

theorem appRun_thrown (env : Env) (p : Bool)
    (h : runExecToSync env = .thrown p) :
    (appRun env).outcome = .exit EXIT_FAILURE ∧
      (appRun env).caughtPrinted = true := by
  unfold appRun
  rw [h]
  exact ⟨rfl, rfl⟩

theorem runExecToSync_no_device (env : Env) (hio : instancePhaseOk env)
    (hdev : env.devices = []) : runExecToSync env = .thrown false := by
  obtain ⟨hci, hvi⟩ := hio
  cases hnd : env.ndebug with
  | true =>
    simp [runExecToSync, hnd, execThrowIf, hdev,
      execChecks, runVkChecks, VK_CHECK_RESULT, VK_SUCCESS, hci,
      execReadFile]
  | false =>
    obtain ⟨hl, he, hcl, hcr⟩ := hvi hnd
    simp [runExecToSync, hnd, execThrowIf, hl, he, hcl, hdev,
      execChecks, runVkChecks, VK_CHECK_RESULT, VK_SUCCESS, hci, hcr,
      execReadFile]

theorem runExecToSync_no_queue (env : Env) (hio : instancePhaseOk env)
    (hdev : env.devices ≠ [])
    (hq : ∀ f ∈ env.queueFamilies, ¬ computeFamilyOk f) :
    runExecToSync env = .thrown false := by
  obtain ⟨hci, hvi⟩ := hio
  obtain ⟨d, ds, hds⟩ := List.exists_cons_of_ne_nil hdev
  have herr : GetComputeQueueFamilyIndex env.queueFamilies =
      .error "could not find a queue family that supports operations" :=
    computeQueueLoop_none env.queueFamilies 0 hq
  cases hnd : env.ndebug with
  | true =>
    simp [runExecToSync, hnd, execThrowIf, hds, herr, exceptOk,
      execChecks, runVkChecks, VK_CHECK_RESULT, VK_SUCCESS, hci,
      execReadFile]
  | false =>
    obtain ⟨hl, he, hcl, hcr⟩ := hvi hnd
    simp [runExecToSync, hnd, execThrowIf, hl, he, hcl, hds, herr, exceptOk,
      execChecks, runVkChecks, VK_CHECK_RESULT, VK_SUCCESS, hci, hcr,
      execReadFile]

theorem runExecToSync_layer_missing (env : Env) (hnd : env.ndebug = false)
    (hl : env.layerSupported = false) : runExecToSync env = .thrown false := by
  simp [runExecToSync, hnd, hl, execThrowIf, execChecks, execReadFile]

theorem runExecToSync_alloc_fail (env : Env) (hnd : env.ndebug = false)
    (hio : instancePhaseOk env) (hdev : env.devices ≠ [])
    (hq : exceptOk (GetComputeQueueFamilyIndex env.queueFamilies) = true)
    (hcd : env.createDeviceRes = VK_SUCCESS)
    (hcb : env.createBufferRes = VK_SUCCESS)
    (ham : env.allocateMemoryRes ≠ VK_SUCCESS) :
    runExecToSync env = .dead true := by
  obtain ⟨hci, hvi⟩ := hio
  obtain ⟨hl, he, hcl, hcr⟩ := hvi hnd
  obtain ⟨d, ds, hds⟩ := List.exists_cons_of_ne_nil hdev
  simp [runExecToSync, hnd, execThrowIf, hl, he, hcl, hds, hq,
    execChecks, runVkChecks, hci, hcr, hcd, hcb, ham,
    VK_CHECK_RESULT, execReadFile]

/-- C5.  Device and queue selection: `FindPhysicalDevice` returns the
first enumerated physical device and throws when none exists;
`GetComputeQueueFamilyIndex` returns the first queue family whose
capability flags include `VK_QUEUE_COMPUTE_BIT` (for any enumeration
whose families all have at least one queue, as Vulkan guarantees) and
throws when no compute-capable family exists; and in the whole-program
model each of the two thrown errors is caught in `main`, which prints
the message and exits with `EXIT_FAILURE`, a non-zero code. -/
theorem C5_device_and_queue_selection :
    (∀ (d : Nat) (ds : List Nat), FindPhysicalDevice (d :: ds) = .ok d) ∧
    FindPhysicalDevice [] =
      .error "could not find a device with vulkan support" ∧
    (∀ fams : List VkQueueFamilyProperties,
       (∀ f ∈ fams, 0 < f.queueCount) →
       ∀ j0, j0 < fams.length →
         computeBitSet (fams.getD j0 ⟨0, 0⟩) →
         (∀ j, j < j0 → ¬ computeBitSet (fams.getD j ⟨0, 0⟩)) →
         GetComputeQueueFamilyIndex fams = .ok j0) ∧
    (∀ fams : List VkQueueFamilyProperties,
       (∀ f ∈ fams, ¬ computeFamilyOk f) →
       GetComputeQueueFamilyIndex fams =
         .error "could not find a queue family that supports operations") ∧
    (∀ env : Env, instancePhaseOk env → env.devices = [] →
       (appRun env).outcome = .exit EXIT_FAILURE ∧
         (appRun env).caughtPrinted = true) ∧
    (∀ env : Env, instancePhaseOk env → env.devices ≠ [] →
       (∀ f ∈ env.queueFamilies, ¬ computeFamilyOk f) →
       (appRun env).outcome = .exit EXIT_FAILURE ∧
         (appRun env).caughtPrinted = true) ∧
    EXIT_FAILURE ≠ EXIT_SUCCESS := by
  refine ⟨fun d ds => rfl, rfl, fun fams hcount j0 hj hbit hmin => ?_,
    fun fams hnone => computeQueueLoop_none fams 0 hnone,
    fun env hio hdev => appRun_thrown env false (runExecToSync_no_device env hio hdev),
    fun env hio hdev hq => appRun_thrown env false (runExecToSync_no_queue env hio hdev hq),
    by decide⟩
  have hmem : fams.getD j0 ⟨0, 0⟩ ∈ fams := by
    rw [List.getD_eq_getElem _ _ hj]
    exact List.getElem_mem _
  have hok : computeFamilyOk (fams.getD j0 ⟨0, 0⟩) :=
    ⟨hcount _ hmem, hbit⟩
  have := computeQueueLoop_found fams 0 j0 hj hok
    (fun j hjlt hfam => hmin j hjlt hfam.2)
  simpa [GetComputeQueueFamilyIndex] using this

/-- C5 witness: with queue families `[⟨1, 1⟩, ⟨1, 6⟩]` (the first
graphics-only, the second compute-capable), index 1 is selected; and on
an otherwise-successful environment with an empty device enumeration the
process exits with `EXIT_FAILURE` after printing the caught message. -/
theorem C5_device_and_queue_selection_witness :
    GetComputeQueueFamilyIndex [⟨1, 1⟩, ⟨1, 6⟩] = .ok 1 ∧
    (appRun { okEnv with devices := [] }).outcome = .exit EXIT_FAILURE :=
  ⟨C5_device_and_queue_selection.2.2.1 [⟨1, 1⟩, ⟨1, 6⟩]
      (by decide) 1 (by decide) (by decide)
      (fun j hj => by
        have hj0 : j = 0 := by omega
        subst hj0; decide),
   (C5_device_and_queue_selection.2.2.2.2.1 { okEnv with devices := [] }
      (by decide) rfl).1⟩

/-- C6 counterexample: in the release (NDEBUG) build, a fence-wait
failure (`vkWaitForFences` returning `VK_TIMEOUT`) is not a caught
runtime error and does not produce a non-zero exit code: the
`VK_CHECK_RESULT` diagnostic is printed, `assert` is disabled, execution
continues, and the process exits with code `EXIT_SUCCESS = 0`,
contradicting the claim that a fence wait failure or timeout yields a
non-zero exit code. -/
theorem C6_fence_timeout_exits_zero_counterexample :
    ({ okEnv with waitFencesRes := VK_TIMEOUT } : Env).waitFencesRes ≠
      VK_SUCCESS ∧
    appRun { okEnv with waitFencesRes := VK_TIMEOUT } =
      ⟨.exit EXIT_SUCCESS, true, false, false, some []⟩ := by
  decide

/-- C6 (amended).  Exit contract: a fully successful run exits with code
0 and prints nothing; the caught runtime errors (unsupported validation
layer, no usable device — and likewise the other `throw` sites) print
the message to stdout and exit with `EXIT_FAILURE ≠ 0`.  Allocation
failures and fence wait failures/timeouts are not caught runtime errors:
`VK_CHECK_RESULT` prints a diagnostic and `assert`s, so in a debug build
an allocation failure aborts the process (no `return` of a code at all),
while in a release (NDEBUG) build a fence wait failure is printed and
execution continues to a normal exit with code 0. -/
theorem C6_process_exit_contract :
    (∀ env : Env, allOk env →
       appRun env = ⟨.exit EXIT_SUCCESS, false, false, false,
         some (bytesOfPixels env.pixels)⟩) ∧
    (∀ env : Env, env.ndebug = false → env.layerSupported = false →
       (appRun env).outcome = .exit EXIT_FAILURE ∧
         (appRun env).caughtPrinted = true) ∧
    (∀ env : Env, instancePhaseOk env → env.devices = [] →
       (appRun env).outcome = .exit EXIT_FAILURE ∧
         (appRun env).caughtPrinted = true) ∧
    (∀ env : Env, env.ndebug = false → instancePhaseOk env →
       env.devices ≠ [] →
       exceptOk (GetComputeQueueFamilyIndex env.queueFamilies) = true →
       env.createDeviceRes = VK_SUCCESS → env.createBufferRes = VK_SUCCESS →
       env.allocateMemoryRes ≠ VK_SUCCESS →
       (appRun env).outcome = .aborted ∧ (appRun env).errPrinted = true) ∧
    (∀ env : Env, env.ndebug = true → env.devices ≠ [] →
       exceptOk (GetComputeQueueFamilyIndex env.queueFamilies) = true →
       env.shaderFile.isSome = true → env.waitFencesRes ≠ VK_SUCCESS →
       (appRun env).outcome = .exit EXIT_SUCCESS ∧
         (appRun env).errPrinted = true) ∧
    EXIT_FAILURE ≠ EXIT_SUCCESS := by
  refine ⟨fun env h => ?_, fun env hnd hl => ?_, fun env hio hdev =>
    appRun_thrown env false (runExecToSync_no_device env hio hdev),
    fun env hnd hio hdev hq hcd hcb ham => ?_,
    fun env hnd hdev hq hsf hwf => ?_, by decide⟩
  · have hb : (env.encodeError != 0) = false := by simp [h.2]
    rw [appRun_clean env h.1, hb]
  · exact appRun_thrown env false (runExecToSync_layer_missing env hnd hl)
  · have hdead := runExecToSync_alloc_fail env hnd hio hdev hq hcd hcb ham
    unfold appRun
    rw [hdead]
    exact ⟨rfl, rfl⟩
  · have hp := runExecToSync_ndebug_wait_printed env hnd hdev hq hsf hwf
    unfold appRun
    rw [hp]
    simp [finishRun, hnd]

/-- C6 witness: on an all-successful release-build environment the
process exits with code 0 printing nothing; with the layer missing in a
debug build it exits `EXIT_FAILURE` printing the caught message. -/
theorem C6_process_exit_contract_witness :
    appRun okEnv = ⟨.exit EXIT_SUCCESS, false, false, false, some []⟩ ∧
    (appRun { okEnv with ndebug := false, layerSupported := false }).outcome =
      .exit EXIT_FAILURE :=
  ⟨C6_process_exit_contract.1 okEnv (by decide),
   (C6_process_exit_contract.2.1
      { okEnv with ndebug := false, layerSupported := false } rfl rfl).1⟩

/-- C7.  An image-encode failure after the GPU work completed is
non-fatal: on a clean run with a nonzero `lodepng::encode` status the
encoder error is printed, the byte buffer handed to the encoder is still
exactly the conversion of the GPU-written pixels (identical to the one
of a run whose encode succeeds), and the process exits with code 0. -/
theorem C7_encode_failure_nonfatal :
    ∀ env : Env, runsClean env → env.encodeError ≠ 0 →
      appRun env = ⟨.exit EXIT_SUCCESS, false, false, true,
        some (bytesOfPixels env.pixels)⟩ ∧
      (appRun env).imageBytes =
        (appRun { env with encodeError := 0 }).imageBytes := by
  intro env h he
  have h0 : runsClean { env with encodeError := 0 } := h
  have hb : (env.encodeError != 0) = true := by simp [he]
  refine ⟨?_, ?_⟩
  · rw [appRun_clean env h, hb]
  · rw [appRun_clean env h, appRun_clean _ h0]

/-- C7 witness: a clean release-build run over one pixel with encoder
status 42 prints the encoder error, exits 0 and still hands the encoder
the bytes of the GPU-written pixel. -/
theorem C7_encode_failure_nonfatal_witness :
    appRun { okEnv with
        encodeError := 42
        pixels := [⟨(1, 1), (0, 1), (1, 2), (1, 1)⟩] } =
      ⟨.exit EXIT_SUCCESS, false, false, true,
        some (bytesOfPixels [⟨(1, 1), (0, 1), (1, 2), (1, 1)⟩])⟩ :=
  (C7_encode_failure_nonfatal
    { okEnv with
        encodeError := 42
        pixels := [⟨(1, 1), (0, 1), (1, 2), (1, 1)⟩] }
    (by decide) (by decide)).1

/-- C10.  Every Vulkan failure check goes through `VK_CHECK_RESULT`,
which prints a diagnostic and then relies on `assert(res == VK_SUCCESS)`:
with NDEBUG (release build) a failing result prints but continues, in a
debug build it aborts; consequently in a release build a run whose
environment is otherwise viable (a device, a compute queue family and
the shader file exist) exits with code 0 no matter which checked Vulkan
calls — allocation, pipeline build, submission, fence wait — fail. -/
theorem C10_release_build_continues_past_failures :
    (∀ res : Int, res ≠ VK_SUCCESS →
       VK_CHECK_RESULT true res = ⟨true, true⟩) ∧
    (∀ res : Int, res ≠ VK_SUCCESS →
       VK_CHECK_RESULT false res = ⟨false, true⟩) ∧
    (∀ env : Env, env.ndebug = true → env.devices ≠ [] →
       exceptOk (GetComputeQueueFamilyIndex env.queueFamilies) = true →
       env.shaderFile.isSome = true →
       (appRun env).outcome = .exit EXIT_SUCCESS) := by
  refine ⟨fun res h => by simp [VK_CHECK_RESULT, h],
    fun res h => by simp [VK_CHECK_RESULT, h],
    fun env hnd hdev hq hsf => ?_⟩
  obtain ⟨p, hp⟩ := runExecToSync_ndebug_runs env hnd hdev hq hsf
  unfold appRun
  rw [hp]
  simp [finishRun, hnd]

/-- C10 witness: in the release build, even with a failed allocation, a
failed submission and a fence timeout, the run exits with code 0; and
`VK_CHECK_RESULT` on a failing result prints and continues. -/
theorem C10_release_build_witness :
    (appRun { okEnv with
        allocateMemoryRes := -4
        queueSubmitRes := -4
        waitFencesRes := 2 }).outcome = .exit EXIT_SUCCESS ∧
    VK_CHECK_RESULT true (-4) = ⟨true, true⟩ :=
  ⟨C10_release_build_continues_past_failures.2.2
      { okEnv with
        allocateMemoryRes := -4
        queueSubmitRes := -4
        waitFencesRes := 2 } rfl (by decide) rfl rfl,
   C10_release_build_continues_past_failures.1 (-4) (by decide)⟩

/-
Exact binary32 arithmetic: correctness of the base-2 logarithm, the
floor log of a positive rational, round-to-nearest-even, the rounding
error bound of `fl32`, its exactness on representable values, and the
resulting exactness of the ceiling of the rounded quotient for
width, groupSize at most 2^24.
-/

theorem log2f_spec (fuel : Nat) : ∀ n, 1 ≤ n → n < 2 ^ fuel →
    2 ^ log2f fuel n ≤ n ∧ n < 2 ^ (log2f fuel n + 1) := by
  induction fuel with
  | zero => intro n h1 h2; simp at h2; omega
  | succ fuel ih =>
    intro n h1 h2
    by_cases hn : n ≤ 1
    · have hone : n = 1 := by omega
      subst hone
      simp [log2f]
    · rw [log2f, if_neg hn]
      have h2' : n / 2 < 2 ^ fuel := by
        rw [Nat.div_lt_iff_lt_mul (by norm_num)]
        calc n < 2 ^ (fuel + 1) := h2
          _ = 2 ^ fuel * 2 := by rw [pow_succ]
      have h1' : 1 ≤ n / 2 := by omega
      obtain ⟨hlo, hhi⟩ := ih (n / 2) h1' h2'
      constructor
      · rw [pow_succ]
        calc 2 ^ log2f fuel (n / 2) * 2 ≤ n / 2 * 2 :=
              Nat.mul_le_mul_right 2 hlo
          _ ≤ n := Nat.div_mul_le_self n 2
      · rw [pow_succ, ← Nat.div_lt_iff_lt_mul (by norm_num)]
        exact hhi

theorem natLog2_spec (n : Nat) (h : 1 ≤ n) :
    2 ^ natLog2 n ≤ n ∧ n < 2 ^ (natLog2 n + 1) :=
  log2f_spec n n h (Nat.lt_two_pow n)

theorem twoPowLE_iff (e : Int) (a b : Nat) (hb : 1 ≤ b) :
    twoPowLE e a b = true ↔ (2 : ℚ) ^ e ≤ (a : ℚ) / (b : ℚ) := by
  have hb0 : (0 : ℚ) < (b : ℚ) := by exact_mod_cast hb
  unfold twoPowLE
  by_cases he : 0 ≤ e
  · have h2 : ((2 ^ e.toNat * b : Nat) : ℚ) = (2 : ℚ) ^ e * (b : ℚ) := by
      have he2 : ((e.toNat : Nat) : Int) = e := by omega
      push_cast
      rw [← zpow_natCast (2 : ℚ) e.toNat, he2]
    rw [if_pos he, decide_eq_true_eq, le_div_iff₀ hb0, ← h2, Nat.cast_le,
      Nat.mul_comm]
  · have hp : (0 : ℚ) < ((2 ^ (-e).toNat : Nat) : ℚ) := by positivity
    have h2 : (2 : ℚ) ^ e = (((2 ^ (-e).toNat : Nat) : ℚ))⁻¹ := by
      set k := (-e).toNat with hk
      have he2 : e = -((k : Nat) : Int) := by omega
      rw [he2, zpow_neg]
      congr 1
      push_cast
      rw [zpow_natCast]
    have h3 : (a : ℚ) * ((2 ^ (-e).toNat : Nat) : ℚ) =
        ((a * 2 ^ (-e).toNat : Nat) : ℚ) := by push_cast; ring
    rw [if_neg he, decide_eq_true_eq, h2, inv_eq_one_div,
      div_le_div_iff₀ hp hb0, one_mul, h3, Nat.cast_le]

theorem ratFloorLog2_spec (a b : Nat) (ha : 1 ≤ a) (hb : 1 ≤ b) :
    (2 : ℚ) ^ ratFloorLog2 a b ≤ (a : ℚ) / (b : ℚ) ∧
      (a : ℚ) / (b : ℚ) < 2 ^ (ratFloorLog2 a b + 1) := by
  have hb0 : (0 : ℚ) < (b : ℚ) := by exact_mod_cast hb
  have ha0 : (0 : ℚ) < (a : ℚ) := by exact_mod_cast ha
  obtain ⟨ha1, ha2⟩ := natLog2_spec a ha
  obtain ⟨hb1, hb2⟩ := natLog2_spec b hb
  have hub : (a : ℚ) / (b : ℚ) <
      2 ^ (((natLog2 a : Int) - (natLog2 b : Int)) + 1) := by
    have h1 : (a : ℚ) < 2 ^ (natLog2 a + 1) := by exact_mod_cast ha2
    have h2 : (2 : ℚ) ^ natLog2 b ≤ (b : ℚ) := by exact_mod_cast hb1
    have h2p : (0 : ℚ) < (2 : ℚ) ^ natLog2 b := by positivity
    have hstep : (a : ℚ) / (b : ℚ) < 2 ^ (natLog2 a + 1) / 2 ^ natLog2 b := by
      rw [div_lt_div_iff₀ hb0 h2p]
      calc (a : ℚ) * 2 ^ natLog2 b ≤ (a : ℚ) * (b : ℚ) :=
            mul_le_mul_of_nonneg_left h2 (le_of_lt ha0)
        _ < 2 ^ (natLog2 a + 1) * (b : ℚ) :=
            mul_lt_mul_of_pos_right h1 hb0
    calc (a : ℚ) / (b : ℚ) < 2 ^ (natLog2 a + 1) / 2 ^ natLog2 b := hstep
      _ = 2 ^ (((natLog2 a : Int) - (natLog2 b : Int)) + 1) := by
          rw [← zpow_natCast (2 : ℚ) (natLog2 a + 1),
            ← zpow_natCast (2 : ℚ) (natLog2 b), ← zpow_sub₀ (by norm_num)]
          congr 1
          push_cast
          ring
  have hlb : (2 : ℚ) ^ (((natLog2 a : Int) - (natLog2 b : Int)) - 1) <
      (a : ℚ) / (b : ℚ) := by
    have h1 : (2 : ℚ) ^ natLog2 a ≤ (a : ℚ) := by exact_mod_cast ha1
    have h2 : (b : ℚ) < 2 ^ (natLog2 b + 1) := by exact_mod_cast hb2
    have h2p : (0 : ℚ) < (2 : ℚ) ^ (natLog2 b + 1) := by positivity
    have h1p : (0 : ℚ) < (2 : ℚ) ^ natLog2 a := by positivity
    have hstep : (2 : ℚ) ^ natLog2 a / 2 ^ (natLog2 b + 1) <
        (a : ℚ) / (b : ℚ) := by
      rw [div_lt_div_iff₀ h2p hb0]
      calc (2 : ℚ) ^ natLog2 a * (b : ℚ) ≤ (a : ℚ) * (b : ℚ) :=
            mul_le_mul_of_nonneg_right h1 (le_of_lt hb0)
        _ < (a : ℚ) * 2 ^ (natLog2 b + 1) :=
            mul_lt_mul_of_pos_left h2 ha0
    calc (2 : ℚ) ^ (((natLog2 a : Int) - (natLog2 b : Int)) - 1) =
        2 ^ natLog2 a / 2 ^ (natLog2 b + 1) := by
          rw [← zpow_natCast (2 : ℚ) (natLog2 a),
            ← zpow_natCast (2 : ℚ) (natLog2 b + 1), ← zpow_sub₀ (by norm_num)]
          congr 1
          push_cast
          ring
      _ < (a : ℚ) / (b : ℚ) := hstep
  unfold ratFloorLog2
  by_cases ht : twoPowLE ((natLog2 a : Int) - (natLog2 b : Int)) a b = true
  · rw [if_pos ht]
    exact ⟨(twoPowLE_iff _ a b hb).mp ht, hub⟩
  · rw [if_neg ht]
    have hnot : ¬ (2 : ℚ) ^ ((natLog2 a : Int) - (natLog2 b : Int)) ≤
        (a : ℚ) / (b : ℚ) := fun hc => ht ((twoPowLE_iff _ a b hb).mpr hc)
    push_neg at hnot
    refine ⟨le_of_lt hlb, ?_⟩
    rw [sub_add_cancel]
    exact hnot

theorem rne_facts (A B : Nat) (hb : 0 < B) :
    (A : ℚ) / (B : ℚ) - 1 / 2 ≤ (rne A B : ℚ) ∧
      (rne A B : ℚ) ≤ (A : ℚ) / (B : ℚ) + 1 / 2 := by
  have hb0 : (0 : ℚ) < (B : ℚ) := by exact_mod_cast hb
  have hdm : (B : ℚ) * ((A / B : Nat) : ℚ) + ((A % B : Nat) : ℚ) = (A : ℚ) := by
    exact_mod_cast Nat.div_add_mod A B
  have hlt : ((A % B : Nat) : ℚ) < (B : ℚ) := by
    exact_mod_cast Nat.mod_lt _ hb
  have hge : (0 : ℚ) ≤ ((A % B : Nat) : ℚ) := by positivity
  have hq : (A : ℚ) / (B : ℚ) =
      ((A / B : Nat) : ℚ) + ((A % B : Nat) : ℚ) / (B : ℚ) := by
    field_simp
    linarith [hdm]
  have hf0 : (0 : ℚ) ≤ ((A % B : Nat) : ℚ) / (B : ℚ) := by positivity
  have hf1 : ((A % B : Nat) : ℚ) / (B : ℚ) < 1 := by
    rw [div_lt_one hb0]
    exact hlt
  unfold rne
  split_ifs with h1 h2 h3
  · have hr2 : ((A % B : Nat) : ℚ) / (B : ℚ) < 1 / 2 := by
      rw [div_lt_div_iff₀ hb0 (by norm_num : (0:ℚ) < 2)]
      have : ((2 * (A % B) : Nat) : ℚ) < (B : ℚ) := by exact_mod_cast h1
      push_cast at this
      linarith
    rw [hq]
    constructor <;> push_cast <;> linarith
  · have hr2 : 1 / 2 < ((A % B : Nat) : ℚ) / (B : ℚ) := by
      rw [div_lt_div_iff₀ (by norm_num : (0:ℚ) < 2) hb0]
      have : (B : ℚ) < ((2 * (A % B) : Nat) : ℚ) := by exact_mod_cast h2
      push_cast at this
      linarith
    rw [hq]
    constructor <;> push_cast <;> linarith
  · have htie : 2 * (A % B) = B := by omega
    have hr2 : ((A % B : Nat) : ℚ) / (B : ℚ) = 1 / 2 := by
      rw [div_eq_div_iff hb0.ne' (by norm_num : (2:ℚ) ≠ 0)]
      have : ((2 * (A % B) : Nat) : ℚ) = (B : ℚ) := by exact_mod_cast htie
      push_cast at this
      linarith
    rw [hq]
    constructor <;> push_cast <;> linarith
  · have htie : 2 * (A % B) = B := by omega
    have hr2 : ((A % B : Nat) : ℚ) / (B : ℚ) = 1 / 2 := by
      rw [div_eq_div_iff hb0.ne' (by norm_num : (2:ℚ) ≠ 0)]
      have : ((2 * (A % B) : Nat) : ℚ) = (B : ℚ) := by exact_mod_cast htie
      push_cast at this
      linarith
    rw [hq]
    constructor <;> push_cast <;> linarith

theorem rne_exact (A B : Nat) (hb : 0 < B) (h : B ∣ A) :
    (rne A B : ℚ) = (A : ℚ) / (B : ℚ) := by
  have hb0 : (0 : ℚ) < (B : ℚ) := by exact_mod_cast hb
  have hr : A % B = 0 := Nat.mod_eq_zero_of_dvd h
  have hdm : (B : ℚ) * ((A / B : Nat) : ℚ) = (A : ℚ) := by
    have := Nat.div_add_mod A B
    rw [hr, Nat.add_zero] at this
    exact_mod_cast this
  unfold rne
  rw [if_pos (by omega : 2 * (A % B) < B), eq_div_iff hb0.ne']
  linarith [hdm]

theorem fl32_den_pos (a b : Nat) : 0 < (fl32 a b).2 := by
  unfold fl32
  split_ifs <;> positivity

theorem fl32_approx (a b : Nat) (ha : 1 ≤ a) (hb : 1 ≤ b) :
    (a : ℚ) / (b : ℚ) - 2 ^ (ratFloorLog2 a b - 24) ≤ fracVal (fl32 a b) ∧
      fracVal (fl32 a b) ≤ (a : ℚ) / (b : ℚ) + 2 ^ (ratFloorLog2 a b - 24) := by
  have hb0 : (0 : ℚ) < (b : ℚ) := by exact_mod_cast hb
  by_cases he : 23 ≤ ratFloorLog2 a b
  · rw [fl32, if_pos he]
    set k := (ratFloorLog2 a b - 23).toNat with hk
    have hkk : ((k : Nat) : Int) = ratFloorLog2 a b - 23 := by omega
    have h2k : (0 : ℚ) < (2 : ℚ) ^ k := by positivity
    have hBn : 0 < b * 2 ^ k := by positivity
    obtain ⟨hlo, hhi⟩ := rne_facts a (b * 2 ^ k) hBn
    have hδ : (2 : ℚ) ^ (ratFloorLog2 a b - 24) = 2 ^ k / 2 := by
      rw [show ratFloorLog2 a b - 24 = ((k : Nat) : Int) - 1 by omega,
        zpow_sub₀ (by norm_num : (2:ℚ) ≠ 0), zpow_natCast, zpow_one]
    have hX : (a : ℚ) / ((b * 2 ^ k : Nat) : ℚ) * 2 ^ k = (a : ℚ) / (b : ℚ) := by
      push_cast
      field_simp
      ring
    have hv : fracVal (rne a (b * 2 ^ k) * 2 ^ k, 1) =
        ((rne a (b * 2 ^ k) : ℚ)) * 2 ^ k := by
      unfold fracVal
      push_cast
      ring
    rw [hv, hδ]
    constructor
    · have := mul_le_mul_of_nonneg_right hlo (le_of_lt h2k)
      rw [sub_mul, hX] at this
      linarith
    · have := mul_le_mul_of_nonneg_right hhi (le_of_lt h2k)
      rw [add_mul, hX] at this
      linarith
  · rw [fl32, if_neg he]
    set k := (23 - ratFloorLog2 a b).toNat with hk
    have hkk : ((k : Nat) : Int) = 23 - ratFloorLog2 a b := by omega
    have h2k : (0 : ℚ) < (2 : ℚ) ^ k := by positivity
    obtain ⟨hlo, hhi⟩ := rne_facts (a * 2 ^ k) b hb
    have hδ : (2 : ℚ) ^ (ratFloorLog2 a b - 24) = 1 / (2 ^ k * 2) := by
      rw [show ratFloorLog2 a b - 24 = -(((k : Nat) : Int) + 1) by omega,
        zpow_neg, zpow_add₀ (by norm_num : (2:ℚ) ≠ 0), zpow_natCast, zpow_one,
        inv_eq_one_div]
    have hA : ((a * 2 ^ k : Nat) : ℚ) / (b : ℚ) / 2 ^ k = (a : ℚ) / (b : ℚ) := by
      push_cast
      field_simp
      ring
    have hv : fracVal (rne (a * 2 ^ k) b, 2 ^ k) =
        (rne (a * 2 ^ k) b : ℚ) / 2 ^ k := by
      unfold fracVal
      push_cast
      ring
    rw [hv, hδ]
    constructor
    · have hdiv : (((a * 2 ^ k : Nat) : ℚ) / (b : ℚ) - 1 / 2) / 2 ^ k ≤
          (rne (a * 2 ^ k) b : ℚ) / 2 ^ k := by gcongr
      have hexp : (((a * 2 ^ k : Nat) : ℚ) / (b : ℚ) - 1 / 2) / 2 ^ k =
          (a : ℚ) / (b : ℚ) - 1 / (2 ^ k * 2) := by
        rw [sub_div, hA]
        ring
      linarith [hexp ▸ hdiv]
    · have hdiv : (rne (a * 2 ^ k) b : ℚ) / 2 ^ k ≤
          (((a * 2 ^ k : Nat) : ℚ) / (b : ℚ) + 1 / 2) / 2 ^ k := by gcongr
      have hexp : (((a * 2 ^ k : Nat) : ℚ) / (b : ℚ) + 1 / 2) / 2 ^ k =
          (a : ℚ) / (b : ℚ) + 1 / (2 ^ k * 2) := by
        rw [add_div, hA]
        ring
      linarith [hexp ▸ hdiv]

set_option maxHeartbeats 1000000 in
theorem fl32_exact (a b c : Nat) (ha : 1 ≤ a) (hb : 1 ≤ b) (hc1 : 1 ≤ c)
    (hc24 : c ≤ 2 ^ 24) (hval : (a : ℚ) / (b : ℚ) = (c : ℚ)) :
    fracVal (fl32 a b) = (c : ℚ) := by
  have hb0 : (0 : ℚ) < (b : ℚ) := by exact_mod_cast hb
  have hspec := ratFloorLog2_spec a b ha hb
  rw [hval] at hspec
  have habc : a = c * b := by
    have := (div_eq_iff hb0.ne').mp hval
    exact_mod_cast this
  have habcq : (a : ℚ) = (c : ℚ) * (b : ℚ) := by exact_mod_cast habc
  have hc24q : (c : ℚ) ≤ 2 ^ 24 := by exact_mod_cast hc24
  have hc1q : (1 : ℚ) ≤ (c : ℚ) := by exact_mod_cast hc1
  have he24 : ratFloorLog2 a b ≤ 24 := by
    by_contra hgt
    have h25 : (2 : ℚ) ^ (25 : Int) ≤ (c : ℚ) :=
      le_trans (zpow_le_zpow_right₀ one_le_two (by omega)) hspec.1
    rw [show (25 : Int) = ((25 : Nat) : Int) from rfl, zpow_natCast] at h25
    norm_num at h25
    linarith
  by_cases he : 23 ≤ ratFloorLog2 a b
  · rw [fl32, if_pos he]
    set k := (ratFloorLog2 a b - 23).toNat with hk
    have hkk : ((k : Nat) : Int) = ratFloorLog2 a b - 23 := by omega
    have hk01 : k = 0 ∨ k = 1 := by omega
    have hdvd : b * 2 ^ k ∣ a := by
      rcases hk01 with hk0 | hk1
      · rw [hk0]
        exact ⟨c, by rw [habc]; ring⟩
      · have he24' : ratFloorLog2 a b = 24 := by omega
        have h224 : (2 : ℚ) ^ (24 : Int) ≤ (c : ℚ) := by
          rw [← he24']
          exact hspec.1
        rw [show (24 : Int) = ((24 : Nat) : Int) from rfl, zpow_natCast]
          at h224
        have hc : c = 2 ^ 24 := by
          have h2c : (2 : ℕ) ^ 24 ≤ c := by exact_mod_cast h224
          omega
        rw [hk1]
        refine ⟨2 ^ 23, ?_⟩
        rw [habc, hc]
        ring
    have hBn : 0 < b * 2 ^ k := by positivity
    have hrne := rne_exact a (b * 2 ^ k) hBn hdvd
    unfold fracVal
    rw [Nat.cast_mul, hrne, Nat.cast_one, div_one]
    push_cast [habcq]
    have h2k : ((2 : ℚ) ^ k) ≠ 0 := by positivity
    field_simp
    ring
  · rw [fl32, if_neg he]
    set k := (23 - ratFloorLog2 a b).toNat with hk
    have hdvd : b ∣ a * 2 ^ k := ⟨c * 2 ^ k, by rw [habc]; ring⟩
    have hrne := rne_exact (a * 2 ^ k) b (by omega) hdvd
    unfold fracVal
    rw [hrne]
    push_cast [habcq]
    have h2k : ((2 : ℚ) ^ k) ≠ 0 := by positivity
    field_simp
    ring

set_option maxHeartbeats 1000000 in
theorem fl32_pow_exact (a b : Nat) (ha : 1 ≤ a) (hb : 1 ≤ b)
    (hval : (a : ℚ) / (b : ℚ) = 2 ^ ratFloorLog2 a b) :
    fracVal (fl32 a b) = (a : ℚ) / (b : ℚ) := by
  have hb0 : (0 : ℚ) < (b : ℚ) := by exact_mod_cast hb
  by_cases he : 23 ≤ ratFloorLog2 a b
  · rw [fl32, if_pos he]
    set k := (ratFloorLog2 a b - 23).toNat with hk
    have hkk : ((k : Nat) : Int) = ratFloorLog2 a b - 23 := by omega
    have hpow : (2 : ℚ) ^ ratFloorLog2 a b = ((2 ^ (k + 23) : Nat) : ℚ) := by
      push_cast
      rw [← zpow_natCast (2 : ℚ) (k + 23)]
      congr 1
      omega
    have h1 := (div_eq_iff hb0.ne').mp (hval.trans hpow)
    have habc : a = b * 2 ^ (k + 23) := by
      push_cast at h1
      have h2 : (a : ℚ) = ((b * 2 ^ (k + 23) : Nat) : ℚ) := by
        push_cast
        linarith [h1]
      exact_mod_cast h2
    have hdvd : b * 2 ^ k ∣ a := ⟨2 ^ 23, by rw [habc]; ring⟩
    have hBn : 0 < b * 2 ^ k := by positivity
    have hrne := rne_exact a (b * 2 ^ k) hBn hdvd
    unfold fracVal
    rw [Nat.cast_mul, hrne, Nat.cast_one, div_one]
    push_cast
    have h2k : ((2 : ℚ) ^ k) ≠ 0 := by positivity
    field_simp
    ring
  · rw [fl32, if_neg he]
    set k := (23 - ratFloorLog2 a b).toNat with hk
    have hkk : ((k : Nat) : Int) = 23 - ratFloorLog2 a b := by omega
    have hpow : (2 : ℚ) ^ ratFloorLog2 a b =
        (2 : ℚ) ^ (23 : Nat) / (2 : ℚ) ^ k := by
      rw [← zpow_natCast (2 : ℚ) 23, ← zpow_natCast (2 : ℚ) k,
        ← zpow_sub₀ (by norm_num : (2 : ℚ) ≠ 0)]
      congr 1
      omega
    have h2kq : ((2 : ℚ) ^ k) ≠ 0 := by positivity
    have habc : a * 2 ^ k = 2 ^ 23 * b := by
      have h1 := hval.trans hpow
      rw [div_eq_div_iff hb0.ne' h2kq] at h1
      exact_mod_cast h1
    have hdvd : b ∣ a * 2 ^ k := ⟨2 ^ 23, by rw [habc]; ring⟩
    have hrne := rne_exact (a * 2 ^ k) b (by omega) hdvd
    unfold fracVal
    rw [hrne]
    have habcq : (a : ℚ) * 2 ^ k = 2 ^ 23 * (b : ℚ) := by exact_mod_cast habc
    push_cast
    rw [div_div, div_eq_div_iff (by positivity) hb0.ne']
    push_cast
    linarith [habcq]

theorem ceilFrac_of_eq (n d m : Nat) (hd : 0 < d)
    (h : (n : ℚ) / (d : ℚ) = (m : ℚ)) : ceilFrac (n, d) = m := by
  have hd0 : (0 : ℚ) < (d : ℚ) := by exact_mod_cast hd
  have hn : n = m * d := by
    have := (div_eq_iff hd0.ne').mp h
    exact_mod_cast this
  subst hn
  unfold ceilFrac
  simp only
  rw [Nat.mul_comm m d, Nat.add_sub_assoc hd (d * m), Nat.mul_add_div hd]
  rw [Nat.div_eq_of_lt (by omega), Nat.add_zero]

theorem ceilFrac_of_between (n d m : Nat) (hd : 0 < d)
    (h1 : (m : ℚ) < (n : ℚ) / (d : ℚ))
    (h2 : (n : ℚ) / (d : ℚ) < (m : ℚ) + 1) : ceilFrac (n, d) = m + 1 := by
  have hd0 : (0 : ℚ) < (d : ℚ) := by exact_mod_cast hd
  have hmd : m * d < n := by
    have := (lt_div_iff₀ hd0).mp h1
    exact_mod_cast this
  have hn : n < (m + 1) * d := by
    have := (div_lt_iff₀ hd0).mp h2
    have h3 : (n : ℚ) < (((m + 1) * d : Nat) : ℚ) := by push_cast; linarith
    exact_mod_cast h3
  unfold ceilFrac
  simp only
  have hexp1 : (m + 1) * d = m * d + d := by ring
  have hexp2 : (m + 1 + 1) * d = m * d + 2 * d := by ring
  exact Nat.div_eq_of_lt_le (by omega) (by omega)

set_option maxHeartbeats 1000000 in
theorem fl32_ceil (a b w g : Nat) (ha : 1 ≤ a) (hb : 1 ≤ b) (hw : 1 ≤ w)
    (hg : 1 ≤ g) (hw24 : w ≤ 2 ^ 24)
    (hval : (a : ℚ) / (b : ℚ) = (w : ℚ) / (g : ℚ)) :
    ceilFrac (fl32 a b) = (w + g - 1) / g := by
  have hg0 : (0 : ℚ) < (g : ℚ) := by exact_mod_cast hg
  have hden := fl32_den_pos a b
  by_cases hdvd : g ∣ w
  · have hc1 : 1 ≤ w / g := by
      have hgw : g ≤ w := Nat.le_of_dvd (by omega) hdvd
      exact (Nat.one_le_div_iff (by omega)).mpr hgw
    have hc24 : w / g ≤ 2 ^ 24 := le_trans (Nat.div_le_self w g) hw24
    have hcast : ((w / g : Nat) : ℚ) = (w : ℚ) / (g : ℚ) :=
      Nat.cast_div hdvd hg0.ne'
    have hex := fl32_exact a b (w / g) ha hb hc1 hc24 (by rw [hval, ← hcast])
    unfold fracVal at hex
    have h1 : ceilFrac ((fl32 a b).1, (fl32 a b).2) = w / g :=
      ceilFrac_of_eq _ _ _ hden hex
    have h2 : ceilFrac (w, g) = w / g :=
      ceilFrac_of_eq w g (w / g) (by omega) hcast.symm
    exact h1.trans h2.symm
  · have hdm := Nat.div_add_mod w g
    have hmod0 : w % g ≠ 0 := fun hmod => hdvd (Nat.dvd_of_mod_eq_zero hmod)
    have hrlt : w % g < g := Nat.mod_lt _ (by omega)
    have hmulc : g * (w / g) = w / g * g := Nat.mul_comm g (w / g)
    have hml : w / g * g + 1 ≤ w := by omega
    have hmu : w + 1 ≤ (w / g + 1) * g := by
      have hexp : (w / g + 1) * g = w / g * g + g := by ring
      omega
    have hmlq : ((w / g : Nat) : ℚ) * (g : ℚ) + 1 ≤ (w : ℚ) := by
      exact_mod_cast hml
    have hmuq : (w : ℚ) + 1 ≤ (((w / g : Nat) : ℚ) + 1) * (g : ℚ) := by
      have h3 : ((w + 1 : Nat) : ℚ) ≤ (((w / g + 1) * g : Nat) : ℚ) := by
        exact_mod_cast hmu
      push_cast at h3
      linarith
    have hq0l : ((w / g : Nat) : ℚ) < (w : ℚ) / (g : ℚ) := by
      rw [lt_div_iff₀ hg0]
      linarith
    have hq0u : (w : ℚ) / (g : ℚ) < ((w / g : Nat) : ℚ) + 1 := by
      rw [div_lt_iff₀ hg0]
      linarith
    have hRHS : (w + g - 1) / g = w / g + 1 := by
      have hexp1 : (w / g + 1) * g = w / g * g + g := by ring
      have hexp2 : (w / g + 1 + 1) * g = w / g * g + 2 * g := by ring
      exact Nat.div_eq_of_lt_le (by omega) (by omega)
    rw [hRHS]
    have hspec := ratFloorLog2_spec a b ha hb
    obtain ⟨happl, happu⟩ := fl32_approx a b ha hb
    by_cases hpow : (a : ℚ) / (b : ℚ) = 2 ^ ratFloorLog2 a b
    · have hex := fl32_pow_exact a b ha hb hpow
      unfold fracVal at hex
      have hv : ((fl32 a b).1 : ℚ) / ((fl32 a b).2 : ℚ) =
          (w : ℚ) / (g : ℚ) := by rw [hex, hval]
      refine ceilFrac_of_between (fl32 a b).1 (fl32 a b).2 (w / g) hden ?_ ?_
      · rw [hv]
        exact hq0l
      · rw [hv]
        exact hq0u
    · have hlt2 : (2 : ℚ) ^ ratFloorLog2 a b < (a : ℚ) / (b : ℚ) :=
        lt_of_le_of_ne hspec.1 (Ne.symm hpow)
      have hδlt : (2 : ℚ) ^ (ratFloorLog2 a b - 24) < 1 / (g : ℚ) := by
        have h24 : (2 : ℚ) ^ (ratFloorLog2 a b - 24) =
            (2 : ℚ) ^ ratFloorLog2 a b / (2 : ℚ) ^ (24 : Nat) := by
          rw [← zpow_natCast (2 : ℚ) 24,
            ← zpow_sub₀ (by norm_num : (2 : ℚ) ≠ 0)]
          norm_num
        have hstep1 : (2 : ℚ) ^ ratFloorLog2 a b / (2 : ℚ) ^ (24 : Nat) <
            ((a : ℚ) / (b : ℚ)) / (2 : ℚ) ^ (24 : Nat) := by gcongr
        have hstep2 : ((a : ℚ) / (b : ℚ)) / (2 : ℚ) ^ (24 : Nat) ≤
            1 / (g : ℚ) := by
          rw [hval, div_div, div_le_div_iff₀ (by positivity) hg0]
          have hw24q : (w : ℚ) ≤ 2 ^ 24 := by exact_mod_cast hw24
          nlinarith [hg0]
        rw [h24]
        linarith
      have happl' := happl
      have happu' := happu
      rw [hval] at happl' happu'
      unfold fracVal at happl' happu'
      have hvl : ((w / g : Nat) : ℚ) <
          ((fl32 a b).1 : ℚ) / ((fl32 a b).2 : ℚ) := by
        have h1 : ((w / g : Nat) : ℚ) + 1 / (g : ℚ) ≤ (w : ℚ) / (g : ℚ) := by
          rw [le_div_iff₀ hg0, add_mul, div_mul_cancel₀ _ hg0.ne']
          linarith
        linarith
      have hvu : ((fl32 a b).1 : ℚ) / ((fl32 a b).2 : ℚ) <
          ((w / g : Nat) : ℚ) + 1 := by
        have h2 : (w : ℚ) / (g : ℚ) + 1 / (g : ℚ) ≤ ((w / g : Nat) : ℚ) + 1 := by
          rw [div_add_div_same, div_le_iff₀ hg0]
          linarith
        linarith
      exact ceilFrac_of_between (fl32 a b).1 (fl32 a b).2 (w / g) hden hvl hvu

set_option maxHeartbeats 1000000 in
theorem dispatchGroupCount_eq (w g : Nat) (hw : 1 ≤ w) (hw24 : w ≤ 2 ^ 24)
    (hg : 1 ≤ g) (hg24 : g ≤ 2 ^ 24) :
    dispatchGroupCount w g = (w + g - 1) / g := by
  have hw0 : (0 : ℚ) < (w : ℚ) := by exact_mod_cast hw
  have hg0 : (0 : ℚ) < (g : ℚ) := by exact_mod_cast hg
  have hwv := fl32_exact w 1 w hw le_rfl hw hw24 (by norm_num)
  have hgv := fl32_exact g 1 g hg le_rfl hg hg24 (by norm_num)
  unfold fracVal at hwv hgv
  have hd1 := fl32_den_pos w 1
  have hd2 := fl32_den_pos g 1
  have hd1q : (0 : ℚ) < ((fl32 w 1).2 : ℚ) := by exact_mod_cast hd1
  have hd2q : (0 : ℚ) < ((fl32 g 1).2 : ℚ) := by exact_mod_cast hd2
  have e1 : ((fl32 w 1).1 : ℚ) = (w : ℚ) * ((fl32 w 1).2 : ℚ) :=
    (div_eq_iff hd1q.ne').mp hwv
  have e2 : ((fl32 g 1).1 : ℚ) = (g : ℚ) * ((fl32 g 1).2 : ℚ) :=
    (div_eq_iff hd2q.ne').mp hgv
  have hn1 : 0 < (fl32 w 1).1 := by
    rcases Nat.eq_zero_or_pos (fl32 w 1).1 with h0 | hpos
    · exfalso
      rw [h0] at e1
      push_cast at e1
      nlinarith [hd1q, hw0]
    · exact hpos
  have hn2 : 0 < (fl32 g 1).1 := by
    rcases Nat.eq_zero_or_pos (fl32 g 1).1 with h0 | hpos
    · exfalso
      rw [h0] at e2
      push_cast at e2
      nlinarith [hd2q, hg0]
    · exact hpos
  have ha : 1 ≤ (fl32 w 1).1 * (fl32 g 1).2 := Nat.mul_pos hn1 hd2
  have hb : 1 ≤ (fl32 w 1).2 * (fl32 g 1).1 := Nat.mul_pos hd1 hn2
  have hvalq : (((fl32 w 1).1 * (fl32 g 1).2 : Nat) : ℚ) /
      (((fl32 w 1).2 * (fl32 g 1).1 : Nat) : ℚ) = (w : ℚ) / (g : ℚ) := by
    push_cast
    rw [e1, e2, div_eq_div_iff (by positivity) hg0.ne']
    ring
  unfold dispatchGroupCount
  exact fl32_ceil _ _ w g ha hb hw hg hw24 hvalq

theorem ceilDiv_least (w g : Nat) (hw : 1 ≤ w) (hg : 1 ≤ g) :
    w ≤ (w + g - 1) / g * g ∧ ∀ n, w ≤ n * g → (w + g - 1) / g ≤ n := by
  constructor
  · have hdm := Nat.div_add_mod (w + g - 1) g
    have hrlt : (w + g - 1) % g < g := Nat.mod_lt _ (by omega)
    have hc : g * ((w + g - 1) / g) = (w + g - 1) / g * g :=
      Nat.mul_comm g ((w + g - 1) / g)
    omega
  · intro n hn
    have hexp : (n + 1) * g = n * g + g := by ring
    have h1 : w + g - 1 < (n + 1) * g := by omega
    have h2 : (w + g - 1) / g < n + 1 :=
      (Nat.div_lt_iff_lt_mul (by omega)).mpr h1
    omega

/-- C3 counterexample: the dispatch expression computes its quotient in
binary32, so for width 2^24 + 1 = 16777217 (a positive `int32` value not
representable in `float`) and groupSize 1 the conversion rounds the
width to 16777216 and the computed group count is 16777216, which does
not satisfy `groupsX * groupSize >= width`: the claim is false for that
positive width/groupSize pair. -/
theorem C3_dispatch_float_rounding_counterexample :
    dispatchGroupCount 16777217 1 = 16777216 ∧
    dispatchGroupCount 16777217 1 * 1 < 16777217 := by
  decide

/-- C3 (amended).  For every positive width and groupSize that are at
most 2^24 (so exactly representable in binary32 — the program's
constants 3200, 2400 and 32 are far below this), the dispatch expression
`(uint32_t)ceil(width / float(groupSize))` equals exact ceiling
division: it is the smallest integer n with `n * groupSize >= width`.
In particular width 3200 with groupSize 32 gives 100, width 3201 gives
101, and the program's dispatch is `(100, 75, 1)` with Z fixed at 1. -/
theorem C3_dispatch_group_counts :
    (∀ w g : Nat, 1 ≤ w → w ≤ 2 ^ 24 → 1 ≤ g → g ≤ 2 ^ 24 →
       w ≤ dispatchGroupCount w g * g ∧
       ∀ n : Nat, w ≤ n * g → dispatchGroupCount w g ≤ n) ∧
    dispatchGroupCount 3200 32 = 100 ∧
    dispatchGroupCount 3201 32 = 101 ∧
    dispatchTriple = (100, 75, 1) := by
  refine ⟨fun w g hw hw24 hg hg24 => ?_, by decide, by decide, by decide⟩
  rw [dispatchGroupCount_eq w g hw hw24 hg hg24]
  exact ceilDiv_least w g hw hg

/-- C3 witness: at width 3201 and groupSize 32 the computed count covers
the width and is at most 101 (hence exactly 101, the least cover). -/
theorem C3_dispatch_group_counts_witness :
    3201 ≤ dispatchGroupCount 3201 32 * 32 ∧ dispatchGroupCount 3201 32 ≤ 101 :=
  ⟨(C3_dispatch_group_counts.1 3201 32 (by decide) (by decide) (by decide)
      (by decide)).1,
   (C3_dispatch_group_counts.1 3201 32 (by decide) (by decide) (by decide)
      (by decide)).2 101 (by decide)⟩

end VMC
